import Mathlib

/-!
# DetailPage: fetch, normalise, cache, classify

A shallow embedding of `src/pages/DetailPage.jsx`: the value helpers `pretty`
and `isMissing`, the endpoint table `SWAPI_ENDPOINT`, the effect `fetchData`
(cache lookup, remote read, validation, normalisation, cache write) and the
completeness verdict `isIncomplete`.

JavaScript values are the values that `JSON.parse` can produce, plus
`undefined` (the result of reading a field that is not there).  Numbers are
the safe integers, which JavaScript holds exactly and prints as plain decimal
digits; numbers with a fraction are outside the model.  A conversion that
throws a `TypeError` gives `none`.
-/

namespace DetailPage

/-- An integer between `-(2^53 - 1)` and `2^53 - 1`: every such integer is a
JavaScript number, and `String` prints it in plain decimal digits. -/
structure SafeInt where
  val : Int
  safe : val.natAbs ≤ 9007199254740991

/-- A JavaScript value as it comes out of a parsed JSON body or out of a
property read: `null`, `undefined`, a boolean, a safe integer, a string, an
array, or an object given by its own fields in insertion order. -/
inductive JSVal where
  | null
  | undefined
  | bool (b : Bool)
  | num (n : SafeInt)
  | str (s : String)
  | arr (items : List JSVal)
  | obj (fields : List (String × JSVal))

namespace JSVal

/-- JavaScript truthiness (`ToBoolean`): `null`, `undefined`, `false`, `0` and
the empty string are falsy, everything else (every array and object too) is
truthy. -/
def truthy : JSVal → Bool
  | null => false
  | undefined => false
  | bool b => b
  | num n => n.val != 0
  | str s => s != ""
  | arr _ => true
  | obj _ => true

/-- Look a field name up among an object's own fields. -/
def lookupField (k : String) : List (String × JSVal) → Option JSVal
  | [] => none
  | (k', v) :: rest => if k' = k then some v else lookupField k rest

mutual
/-- The string form `String(v)`, or `none` when the conversion throws a
`TypeError`.  An array is its elements joined by commas.  An object with no
own field `toString` is the text `[object Object]` of `Object.prototype`; an
own field `toString` of a parsed value is not callable and hides the
inherited method, and as `valueOf` gives no primitive either, the conversion
throws. -/
def toStr : JSVal → Option String
  | null => some "null"
  | undefined => some "undefined"
  | bool true => some "true"
  | bool false => some "false"
  | num n => some (toString n.val)
  | str s => some s
  | arr items => joinItems items
  | obj fields =>
    if (lookupField "toString" fields).isSome then none
    else some "[object Object]"
/-- `Array.prototype.join` with the comma separator, element by element from
the left; it throws when the conversion of an element throws. -/
def joinItems : List JSVal → Option String
  | [] => some ""
  | [x] => itemStr x
  | x :: y :: rest =>
    match itemStr x with
    | none => none
    | some first =>
      match joinItems (y :: rest) with
      | none => none
      | some others => some (first ++ "," ++ others)
/-- The contribution of one array element to the joined text: the empty
string for `null` and `undefined`, the string form for every other value. -/
def itemStr : JSVal → Option String
  | null => some ""
  | undefined => some ""
  | bool true => some "true"
  | bool false => some "false"
  | num n => some (toString n.val)
  | str s => some s
  | arr items => joinItems items
  | obj fields =>
    if (lookupField "toString" fields).isSome then none
    else some "[object Object]"
end

/-- The values for which optional chaining `v?.k` short-circuits. -/
def isNullish : JSVal → Bool
  | null => true
  | undefined => true
  | _ => false

/-- The property read `v.k`, for the field names this page reads (`result`,
`properties`, `name`, `description`, `message` and the required fields), none
of which is an index, `length` or a member of a built-in prototype: an
object gives its own field or `undefined`, every other value gives
`undefined`. -/
def get (v : JSVal) (k : String) : JSVal :=
  match v with
  | obj fields => (lookupField k fields).getD undefined
  | _ => undefined

/-- The optional property read `v?.k`. -/
def optGet (v : JSVal) (k : String) : JSVal :=
  if v.isNullish then undefined else v.get k

/-- The expression `a || b`. -/
def orElse (a b : JSVal) : JSVal :=
  if a.truthy then a else b

end JSVal

open JSVal

/-- The white space and line terminator code points that
`String.prototype.trim` removes. -/
def jsWhiteSpace : List Nat :=
  [9, 10, 11, 12, 13, 32, 160, 5760, 8192, 8193, 8194, 8195, 8196, 8197, 8198,
   8199, 8200, 8201, 8202, 8232, 8233, 8239, 8287, 12288, 65279]

/-- Whether `trim` removes the character. -/
def isJsSpace (c : Char) : Bool :=
  decide (c.toNat ∈ jsWhiteSpace)

/-- The method `String.prototype.trim`: drop the leading and the trailing
white space. -/
def jsTrim (s : String) : String :=
  String.mk ((s.data.dropWhile isJsSpace).reverse.dropWhile isJsSpace).reverse

/-- The helper `pretty` (lines 10-14); `none` when `String(v)` throws. -/
def pretty (v : JSVal) : Option String :=
  if v.isNullish then some "No disponible"
  else
    match v.toStr with
    | none => none
    | some text =>
      let s := jsTrim text
      some (if s.length != 0 then s else "No disponible")

/-- The helper `isMissing` (line 16); `none` when `pretty` throws. -/
def isMissing (v : JSVal) : Option Bool :=
  match pretty v with
  | none => none
  | some s => some (s == "No disponible")

/-! ## The endpoint table -/

/-- The own entries of the object literal `SWAPI_ENDPOINT` (lines 18-22). -/
def SWAPI_ENDPOINT : List (String × String) :=
  [("character", "people"), ("planet", "planets"), ("starship", "starships")]

/-- The member names that every object literal inherits from
`Object.prototype`; a bracket read `SWAPI_ENDPOINT[type]` with one of them
finds the inherited member. -/
def objectPrototypeNames : List String :=
  ["constructor", "__proto__", "hasOwnProperty", "isPrototypeOf",
   "propertyIsEnumerable", "toLocaleString", "toString", "valueOf",
   "__defineGetter__", "__defineSetter__", "__lookupGetter__",
   "__lookupSetter__"]

/-- What the bracket read `SWAPI_ENDPOINT[type]` finds. -/
inductive Endpoint where
  | own (path : String)
  | inherited (name : String)
  | absent
  deriving DecidableEq

namespace Endpoint

/-- Truthiness of what the read found: an own entry is a string, an inherited
member is a function or an object, a missing one is `undefined`. -/
def truthy : Endpoint → Bool
  | own path => path != ""
  | inherited _ => true
  | absent => false

/-- The text that the template literal of the URL puts in for the endpoint. -/
def text : Endpoint → String
  | own path => path
  | inherited name =>
    if name = "__proto__" then "[object Object]"
    else if name = "constructor" then "function Object() \x7b [native code] \x7d"
    else "function " ++ name ++ "() \x7b [native code] \x7d"
  | absent => "undefined"

end Endpoint

/-- The read `SWAPI_ENDPOINT[type]` (line 53): an own entry first, then the
prototype. -/
def lookupEndpoint (type : String) : Endpoint :=
  match SWAPI_ENDPOINT.lookup type with
  | some path => .own path
  | none => if type ∈ objectPrototypeNames then .inherited type else .absent

/-! ## The cache store and the network -/

/-- The interface of the module `components/StoreLocal`, whose code is not
part of the page: a state of type `σ`, a `read` that gives the value stored
under a key (a falsy value when there is none) and a `save`. -/
structure StoreLocal (σ : Type) where
  read : σ → String → JSVal
  save : σ → String → JSVal → σ

/-- What `resp.json()` gives: a thrown value or the parsed body. -/
inductive JsonResult where
  | throws (err : JSVal)
  | value (json : JSVal)

/-- A response of `fetch`: its status and its body. -/
structure Response where
  status : Nat
  json : JsonResult

/-- The getter `resp.ok`: the status is in the range 200-299. -/
def Response.ok (resp : Response) : Bool :=
  decide (200 ≤ resp.status) && decide (resp.status ≤ 299)

/-- What `await fetch(url)` gives: a thrown value or a response. -/
inductive FetchResult where
  | throws (err : JSVal)
  | resolves (resp : Response)

/-- The remote side: what a request of a URL gives. -/
abbrev Network := String → FetchResult

/-! ## fetchData -/

/-- The cache key (line 42). -/
def storeKey (type id : String) : String :=
  "starwars_" ++ type ++ "_" ++ id

/-- The value `new Error(msg)`, as far as the handler reads it. -/
def newError (msg : String) : JSVal :=
  .obj [("message", .str msg)]

/-- The own enumerable fields that an object spread copies. -/
def spreadFields : JSVal → List (String × JSVal)
  | .obj fields => fields
  | .arr items => (List.range items.length).zip items |>.map
      (fun p => (toString p.1, p.2))
  | .str s => (List.range s.length).zip s.data |>.map
      (fun p => (toString p.1, .str (String.singleton p.2)))
  | _ => []

/-- Write a field of an object literal under construction: an existing field
keeps its place and takes the new value, a new one goes last. -/
def setField (k : String) (v : JSVal) : List (String × JSVal) → List (String × JSVal)
  | [] => [(k, v)]
  | (k', v') :: rest =>
    if k' = k then (k, v) :: rest else (k', v') :: setField k v rest

/-- The literal `{ ...props, description: props.description || "" }`
(lines 68-72). -/
def finalData (props : JSVal) : JSVal :=
  .obj (setField "description" (orElse (props.get "description") (.str ""))
    (spreadFields props))

/-- The URL of the remote read (line 56). -/
def requestUrl (endpoint : Endpoint) (id : String) : String :=
  "https://www.swapi.tech/api/" ++ endpoint.text ++ "/" ++ id

/-- The state of the page after a run of `fetchData`, with the cache and the
URLs requested during the run. -/
structure Outcome (σ : Type) where
  data : JSVal
  error : JSVal
  loading : Bool
  cache : σ
  requests : List String

/-- The body of the `try` block (lines 53-75): the URLs requested, and either
the thrown value or the record with the cache after the save. -/
def tryBlock {σ : Type} (S : StoreLocal σ) (net : Network) (cache : σ)
    (type id : String) : List String × Except JSVal (JSVal × σ) :=
  let endpoint := lookupEndpoint type
  if !endpoint.truthy then
    ([], .error (newError ("Tipo inválido: " ++ type)))
  else
    let url := requestUrl endpoint id
    match net url with
    | .throws err => ([url], .error err)
    | .resolves resp =>
      if !resp.ok then
        ([url], .error (newError ("SWAPI error " ++ toString resp.status)))
      else
        match resp.json with
        | .throws err => ([url], .error err)
        | .value json =>
          let props := (json.optGet "result").optGet "properties"
          if !props.truthy || !(props.get "name").truthy then
            ([url], .error (newError "Respuesta inesperada de SWAPI.tech"))
          else
            let record := finalData props
            ([url], .ok (record, S.save cache (storeKey type id) record))

/-- The effect `fetchData` (lines 38-82) for the route parameters `type` and
`id`, run on a cache and against a network. -/
def fetchData {σ : Type} (S : StoreLocal σ) (net : Network) (cache : σ)
    (type id : String) : Outcome σ :=
  let stored := S.read cache (storeKey type id)
  if stored.truthy then
    { data := stored, error := .null, loading := false, cache := cache,
      requests := [] }
  else
    match tryBlock S net cache type id with
    | (requests, .ok (record, cache')) =>
      { data := record, error := .null, loading := false, cache := cache',
        requests := requests }
    | (requests, .error err) =>
      { data := .null,
        error := orElse (err.optGet "message") (.str "Error desconocido"),
        loading := false, cache := cache, requests := requests }

/-! ## The completeness verdict -/

/-- The array of required values that the page builds for the type
(lines 114-120). -/
def requiredValues (type : String) (data : JSVal) : List JSVal :=
  if type = "character" then
    [data.optGet "gender", data.optGet "hair_color", data.optGet "eye_color",
     data.optGet "birth_year"]
  else if type = "planet" then
    [data.optGet "climate", data.optGet "terrain", data.optGet "population"]
  else if type = "starship" then
    [data.optGet "model", data.optGet "manufacturer",
     data.optGet "cost_in_credits"]
  else []

/-- The call `.filter(isMissing)` (line 121): the elements are tested from the
left, and the call throws when a test throws. -/
def filterMissing : List JSVal → Option (List JSVal)
  | [] => some []
  | v :: rest =>
    match isMissing v with
    | none => none
    | some keep =>
      match filterMissing rest with
      | none => none
      | some kept => some (if keep then v :: kept else kept)

/-- The constant `missingCount` (lines 113-121); `none` when the filter
throws. -/
def missingCount (type : String) (data : JSVal) : Option Nat :=
  match filterMissing (requiredValues type data) with
  | none => none
  | some kept => some kept.length

/-- The constant `isIncomplete` (line 123); `none` when no count was
reached. -/
def isIncomplete (type : String) (data : JSVal) : Option Bool :=
  match missingCount type data with
  | none => none
  | some count => some (decide (count ≥ 2))

/-- The required field names of a type as the specification lists them
(MissingFieldSet); an unrecognised type has none. -/
def requiredFields (type : String) : List String :=
  if type = "character" then ["gender", "hair_color", "eye_color", "birth_year"]
  else if type = "planet" then ["climate", "terrain", "population"]
  else if type = "starship" then ["model", "manufacturer", "cost_in_credits"]
  else []

/-- The validity of a parsed body in the words of the specification: the
body contains `result.properties`, and that object contains a non-empty name.
Non-empty is what the page tests of the name, its truthiness; a string name
is non-empty when it is not the empty string. -/
def validBody (json : JSVal) : Prop :=
  ∃ body result props name,
    json = .obj body ∧ lookupField "result" body = some (.obj result) ∧
    lookupField "properties" result = some (.obj props) ∧
    lookupField "name" props = some name ∧ name.truthy = true

/-- Whether the store reports no entry under a key: the read gives a falsy
value, which the page takes for a miss. -/
def StoreLocal.absent {σ : Type} (S : StoreLocal σ) (cache : σ) (key : String) :
    Prop :=
  (S.read cache key).truthy = false

/-- Modelled from the spec: the module `components/StoreLocal` as a store in
memory, a list of entries with the last saved first; `read` gives the entry
saved last under the key and `null` when there is none, `save` puts an entry
in front and so overwrites. -/
def memStore : StoreLocal (List (String × JSVal)) where
  read cache key := (lookupField key cache).getD .null
  save cache key record := (key, record) :: cache

/-- A network that answers every request with the given status and parsed
body. -/
def respond (status : Nat) (json : JSVal) : Network :=
  fun _ => .resolves { status := status, json := .value json }

/-- A network on which every request fails at the transport. -/
def unreachable : Network :=
  fun _ => .throws (newError "Failed to fetch")

/-- A body in the usual shape of the remote source, with the given
properties. -/
def bodyOf (props : List (String × JSVal)) : JSVal :=
  .obj [("message", .str "ok"), ("result", .obj [("properties", .obj props)])]

/-- The properties of Scenario A of the specification: a name, an eye colour
and a birth year, no gender, no hair colour, no description. -/
def lukeProps : List (String × JSVal) :=
  [("name", .str "Luke Skywalker"), ("eye_color", .str "blue"),
   ("birth_year", .str "19BBY")]

/-- The trimmed form of a string in the words of the language standard: `t`
is what is left of `s` when a leading run and a trailing run of white space
are taken away, and `t` neither starts nor ends with white space. -/
def TrimOf (s t : String) : Prop :=
  ∃ front back : List Char,
    s.data = front ++ (t.data ++ back) ∧
    (∀ c ∈ front, isJsSpace c = true) ∧ (∀ c ∈ back, isJsSpace c = true) ∧
    (∀ c, t.data.head? = some c → isJsSpace c = false) ∧
    (∀ c, t.data.getLast? = some c → isJsSpace c = false)

/-- A parsed object with an own field `toString`. -/
def ownToString : JSVal :=
  .obj [("toString", .num ⟨1, by decide⟩)]

/-- A character record with a name and a birth year, and a gender that is an
object with an own field `toString`; it has no hair colour and no eye
colour. -/
def shadowedGender : JSVal :=
  .obj [("name", .str "C"), ("gender", ownToString), ("birth_year", .str "c")]

/-- The record of Scenario A of the specification after normalisation. -/
def lukeRecord : JSVal :=
  .obj (lukeProps ++ [("description", .str "")])

/-- A network that answers every request with the given status and a body
whose parsing throws the given value. -/
def respondUnparsed (status : Nat) (err : JSVal) : Network :=
  fun _ => .resolves { status := status, json := .throws err }

/-! ## Decidable tests on values -/

instance decEqNull (v : JSVal) : Decidable (v = JSVal.null) :=
  match v with
  | .null => isTrue rfl
  | .undefined => isFalse (by intro h; cases h)
  | .bool _ => isFalse (by intro h; cases h)
  | .num _ => isFalse (by intro h; cases h)
  | .str _ => isFalse (by intro h; cases h)
  | .arr _ => isFalse (by intro h; cases h)
  | .obj _ => isFalse (by intro h; cases h)

instance decEqUndefined (v : JSVal) : Decidable (v = JSVal.undefined) :=
  match v with
  | .null => isFalse (by intro h; cases h)
  | .undefined => isTrue rfl
  | .bool _ => isFalse (by intro h; cases h)
  | .num _ => isFalse (by intro h; cases h)
  | .str _ => isFalse (by intro h; cases h)
  | .arr _ => isFalse (by intro h; cases h)
  | .obj _ => isFalse (by intro h; cases h)

/-! ## Lemmas on trimming -/

theorem dropWhile_append_of_all {α : Type} (p : α → Bool) :
    ∀ (front rest : List α), (∀ c ∈ front, p c = true) →
      (front ++ rest).dropWhile p = rest.dropWhile p
  | [], _, _ => rfl
  | c :: front, rest, h => by
    have hc : p c = true := h c (List.mem_cons_self _ _)
    simp only [List.cons_append, List.dropWhile_cons, hc, if_true]
    exact dropWhile_append_of_all p front rest
      (fun d hd => h d (List.mem_cons_of_mem _ hd))

theorem dropWhile_of_all {α : Type} (p : α → Bool) (l : List α)
    (h : ∀ c ∈ l, p c = true) : l.dropWhile p = [] := by
  have := dropWhile_append_of_all p l [] h
  simpa using this

theorem dropWhile_of_head {α : Type} (p : α → Bool) (l : List α)
    (h : ∀ c, l.head? = some c → p c = false) : l.dropWhile p = l := by
  cases l with
  | nil => rfl
  | cons c rest =>
    have hc : p c = false := h c rfl
    simp [List.dropWhile_cons, hc]

theorem head_dropWhile {α : Type} (p : α → Bool) :
    ∀ (l : List α) (c : α), (l.dropWhile p).head? = some c → p c = false
  | [], _, h => by simp at h
  | d :: rest, c, h => by
    by_cases hd : p d = true
    · simp only [List.dropWhile_cons, hd, if_true] at h
      exact head_dropWhile p rest c h
    · simp only [List.dropWhile_cons, hd] at h
      simp at h
      rw [← h]
      simpa using hd

/-- The trimmed list: the characters of `jsTrim`. -/
theorem jsTrim_data (s : String) :
    (jsTrim s).data
      = ((s.data.dropWhile isJsSpace).reverse.dropWhile isJsSpace).reverse :=
  rfl

theorem trim_of_parts (front t back : List Char)
    (hf : ∀ c ∈ front, isJsSpace c = true) (hb : ∀ c ∈ back, isJsSpace c = true)
    (hh : ∀ c, t.head? = some c → isJsSpace c = false)
    (hl : ∀ c, t.getLast? = some c → isJsSpace c = false) :
    (((front ++ (t ++ back)).dropWhile isJsSpace).reverse.dropWhile
      isJsSpace).reverse = t := by
  rw [dropWhile_append_of_all isJsSpace front _ hf]
  cases t with
  | nil =>
    rw [List.nil_append, dropWhile_of_all isJsSpace back hb]
    rfl
  | cons c rest =>
    have h1 : ((c :: rest) ++ back).dropWhile isJsSpace = (c :: rest) ++ back :=
      dropWhile_of_head isJsSpace _ (fun d hd => hh d (by simpa using hd))
    rw [h1, List.reverse_append,
      dropWhile_append_of_all isJsSpace back.reverse _
        (fun d hd => hb d (List.mem_reverse.mp hd)),
      dropWhile_of_head isJsSpace (c :: rest).reverse
        (fun d hd => hl d (by rw [← List.head?_reverse]; exact hd)),
      List.reverse_reverse]

/-- The string `jsTrim s` is the trimmed form of `s`, and the only one. -/
theorem trimOf_iff (s t : String) : TrimOf s t ↔ t = jsTrim s := by
  constructor
  · rintro ⟨front, back, hs, hf, hb, hh, hl⟩
    apply String.ext
    rw [jsTrim_data, hs]
    exact (trim_of_parts front t.data back hf hb hh hl).symm
  · intro ht
    subst ht
    let m := s.data.dropWhile isJsSpace
    let r := m.reverse
    have hm : s.data = s.data.takeWhile isJsSpace ++ m :=
      (List.takeWhile_append_dropWhile isJsSpace s.data).symm
    have hr : m = (r.dropWhile isJsSpace).reverse
        ++ (r.takeWhile isJsSpace).reverse := by
      rw [← List.reverse_append, List.takeWhile_append_dropWhile,
        List.reverse_reverse]
    refine ⟨s.data.takeWhile isJsSpace, (r.takeWhile isJsSpace).reverse, ?_,
      ?_, ?_, ?_, ?_⟩
    · rw [jsTrim_data]
      exact hm.trans (congrArg _ hr)
    · intro c hc
      exact List.mem_takeWhile_imp hc
    · intro c hc
      exact List.mem_takeWhile_imp (List.mem_reverse.mp hc)
    · intro c hc
      rw [jsTrim_data] at hc
      have hne : (r.dropWhile isJsSpace).reverse ≠ [] := by
        intro h0
        rw [h0] at hc
        simp at hc
      have hhead : m.head? = some c := by
        rw [hr, List.head?_append_of_ne_nil _ hne]
        exact hc
      exact head_dropWhile isJsSpace s.data c hhead
    · intro c hc
      rw [jsTrim_data, List.getLast?_reverse] at hc
      exact head_dropWhile isJsSpace r c hc

/-! ## Lemmas on the helpers -/

theorem isNullish_iff (v : JSVal) :
    v.isNullish = true ↔ v = .null ∨ v = .undefined := by
  cases v <;> simp [JSVal.isNullish]

theorem length_eq_zero_iff_empty (s : String) : s.length = 0 ↔ s = "" := by
  constructor
  · intro h
    have hd : s.data = [] := List.length_eq_zero.mp h
    exact String.ext hd
  · intro h
    subst h
    rfl

theorem pretty_of_nullish {v : JSVal} (h : v.isNullish = true) :
    pretty v = some "No disponible" := by
  simp [pretty, h]

/-- The helper `pretty` throws on a value that is neither `null` nor
`undefined` and whose string conversion throws. -/
theorem pretty_of_throw {v : JSVal} (hn : v.isNullish = false)
    (h : v.toStr = none) : pretty v = none := by
  simp [pretty, hn, h]

theorem pretty_of_text {v : JSVal} {s : String} (hn : v.isNullish = false)
    (h : v.toStr = some s) :
    pretty v = some (if jsTrim s = "" then "No disponible" else jsTrim s) := by
  by_cases he : jsTrim s = ""
  · simp [pretty, hn, h, he]
  · have hl : (jsTrim s).length ≠ 0 := fun h0 =>
      he ((length_eq_zero_iff_empty _).mp h0)
    simp [pretty, hn, h, he, hl]

theorem pretty_cases (v : JSVal) (s : String) (hs : v.toStr = some s) :
    pretty v =
      some (if v = .null ∨ v = .undefined ∨ jsTrim s = "" then "No disponible"
        else jsTrim s) := by
  by_cases hn : v.isNullish = true
  · have hc : v = .null ∨ v = .undefined ∨ jsTrim s = "" := by
      rcases (isNullish_iff v).mp hn with h | h
      · exact Or.inl h
      · exact Or.inr (Or.inl h)
    rw [if_pos hc]
    exact pretty_of_nullish hn
  · have hn' : v.isNullish = false := by simpa using hn
    rw [pretty_of_text hn' hs]
    by_cases he : jsTrim s = ""
    · rw [if_pos he, if_pos (Or.inr (Or.inr he))]
    · have hc : ¬ (v = .null ∨ v = .undefined ∨ jsTrim s = "") := by
        rintro (h | h | h)
        · exact hn ((isNullish_iff v).mpr (Or.inl h))
        · exact hn ((isNullish_iff v).mpr (Or.inr h))
        · exact he h
      rw [if_neg he, if_neg hc]

theorem isMissing_cases (v : JSVal) :
    isMissing v = some true ↔
      (v = .null ∨ v = .undefined ∨
        ∃ s, v.toStr = some s ∧
          (jsTrim s = "" ∨ jsTrim s = "No disponible")) := by
  by_cases hn : v.isNullish = true
  · have hc := (isNullish_iff v).mp hn
    constructor
    · intro _
      rcases hc with h | h
      · exact Or.inl h
      · exact Or.inr (Or.inl h)
    · intro _
      simp [isMissing, pretty_of_nullish hn]
  · have hn' : v.isNullish = false := by simpa using hn
    have hnull : ¬ v = .null := fun h => hn ((isNullish_iff v).mpr (Or.inl h))
    have hundef : ¬ v = .undefined := fun h =>
      hn ((isNullish_iff v).mpr (Or.inr h))
    cases hs : v.toStr with
    | none =>
      simp [isMissing, pretty_of_throw hn' hs, hnull, hundef]
    | some s =>
      by_cases he : jsTrim s = ""
      · simp [isMissing, pretty_of_text hn' hs, he]
      · simp [isMissing, pretty_of_text hn' hs, he, hnull, hundef]

/-- The helper `isMissing` returns exactly when the value is `null` or
`undefined` or has a string form. -/
theorem isMissing_ne_none_iff (v : JSVal) :
    isMissing v ≠ none ↔ (v.isNullish = true ∨ v.toStr ≠ none) := by
  by_cases hn : v.isNullish = true
  · simp [isMissing, pretty_of_nullish hn, hn]
  · have hn' : v.isNullish = false := by simpa using hn
    cases hs : v.toStr with
    | none => simp [isMissing, pretty_of_throw hn' hs, hn']
    | some s => simp [isMissing, pretty_of_text hn' hs, hn']

theorem two_le_filter_length_iff {α : Type} (p : α → Bool) (l : List α)
    (hl : l.Nodup) :
    2 ≤ (l.filter p).length ↔
      ∃ a b, a ∈ l ∧ b ∈ l ∧ a ≠ b ∧ p a = true ∧ p b = true := by
  constructor
  · intro h
    have hnd : (l.filter p).Nodup := hl.filter _
    match hm : l.filter p, h, hnd with
    | a :: b :: rest, _, hnd' =>
      have ha : a ∈ l.filter p := by rw [hm]; simp
      have hb : b ∈ l.filter p := by rw [hm]; simp
      have hab : a ≠ b := by
        intro hEq
        rw [hEq] at hnd'
        simp at hnd'
      rw [List.mem_filter] at ha hb
      exact ⟨a, b, ha.1, hb.1, hab, ha.2, hb.2⟩
    | [], h', _ => simp at h'
    | [_], h', _ => simp at h'
  · rintro ⟨a, b, ha, hb, hab, hpa, hpb⟩
    have ha' : a ∈ l.filter p := List.mem_filter.mpr ⟨ha, hpa⟩
    have hb' : b ∈ l.filter p := List.mem_filter.mpr ⟨hb, hpb⟩
    match hm : l.filter p with
    | [] => rw [hm] at ha'; simp at ha'
    | [x] =>
      rw [hm] at ha' hb'
      simp at ha' hb'
      exact absurd (ha'.trans hb'.symm) hab
    | _ :: _ :: _ => simp

theorem requiredValues_eq_map (type : String) (data : JSVal) :
    requiredValues type data =
      (requiredFields type).map (fun f => data.optGet f) := by
  unfold requiredValues requiredFields
  split_ifs <;> rfl

theorem requiredFields_nodup (type : String) : (requiredFields type).Nodup := by
  unfold requiredFields
  split_ifs <;> decide

theorem filterMissing_of_all :
    ∀ l : List JSVal, (∀ v ∈ l, isMissing v ≠ none) →
      filterMissing l = some (l.filter (fun v => isMissing v == some true))
  | [], _ => rfl
  | v :: rest, h => by
    have hrest := filterMissing_of_all rest
      (fun w hw => h w (List.mem_cons_of_mem _ hw))
    have hv := h v (List.mem_cons_self _ _)
    cases hm : isMissing v with
    | none => exact absurd hm hv
    | some keep =>
      cases keep <;> simp [filterMissing, hm, hrest, List.filter_cons]

/-- The filter throws as soon as the test of one element throws. -/
theorem filterMissing_of_throw :
    ∀ l : List JSVal, (∃ v ∈ l, isMissing v = none) → filterMissing l = none
  | [], h => by
    obtain ⟨v, hv, -⟩ := h
    simp at hv
  | w :: rest, h => by
    cases hm : isMissing w with
    | none => simp [filterMissing, hm]
    | some keep =>
      have hrest : filterMissing rest = none := by
        apply filterMissing_of_throw rest
        obtain ⟨v, hv, hnone⟩ := h
        rcases List.mem_cons.mp hv with hEq | hmem
        · rw [hEq, hm] at hnone
          cases hnone
        · exact ⟨v, hmem, hnone⟩
      simp [filterMissing, hm, hrest]

theorem missingCount_eq (type : String) (data : JSVal)
    (h : ∀ f ∈ requiredFields type, isMissing (data.optGet f) ≠ none) :
    missingCount type data =
      some ((requiredFields type).filter
        (fun f => isMissing (data.optGet f) == some true)).length := by
  have hall : ∀ v ∈ requiredValues type data, isMissing v ≠ none := by
    intro v hv
    rw [requiredValues_eq_map, List.mem_map] at hv
    obtain ⟨f, hf, rfl⟩ := hv
    exact h f hf
  unfold missingCount
  rw [filterMissing_of_all _ hall, requiredValues_eq_map, List.filter_map]
  simp only [List.length_map]
  rfl

/-! ## Lemmas on `fetchData` -/

theorem get_obj (fields : List (String × JSVal)) (k : String) :
    (JSVal.obj fields).get k = (lookupField k fields).getD .undefined := rfl

theorem truthy_get_iff (v : JSVal) (k : String) :
    (v.get k).truthy = true ↔
      ∃ fields x, v = .obj fields ∧ lookupField k fields = some x ∧
        x.truthy = true := by
  constructor
  · intro h
    cases v with
    | obj fields =>
      rw [get_obj] at h
      cases hl : lookupField k fields with
      | none => rw [hl] at h; simp [JSVal.truthy] at h
      | some x =>
        rw [hl] at h
        exact ⟨fields, x, rfl, hl, by simpa using h⟩
    | null => simp [JSVal.get, JSVal.truthy] at h
    | undefined => simp [JSVal.get, JSVal.truthy] at h
    | bool b => simp [JSVal.get, JSVal.truthy] at h
    | num n => simp [JSVal.get, JSVal.truthy] at h
    | str t => simp [JSVal.get, JSVal.truthy] at h
    | arr items => simp [JSVal.get, JSVal.truthy] at h
  · rintro ⟨fields, x, rfl, hl, hx⟩
    rw [get_obj, hl]
    simpa using hx

theorem optGet_eq_obj_iff (v : JSVal) (k : String) (inner : List (String × JSVal)) :
    v.optGet k = .obj inner ↔
      ∃ fields, v = .obj fields ∧ lookupField k fields = some (.obj inner) := by
  constructor
  · intro h
    cases v with
    | obj fields =>
      simp only [JSVal.optGet, JSVal.isNullish, get_obj] at h
      cases hl : lookupField k fields with
      | none => rw [hl] at h; simp at h
      | some x =>
        rw [hl] at h
        simp at h
        exact ⟨fields, rfl, by rw [hl, h]⟩
    | null => simp [JSVal.optGet, JSVal.isNullish] at h
    | undefined => simp [JSVal.optGet, JSVal.isNullish] at h
    | bool b => simp [JSVal.optGet, JSVal.isNullish, JSVal.get] at h
    | num n => simp [JSVal.optGet, JSVal.isNullish, JSVal.get] at h
    | str t => simp [JSVal.optGet, JSVal.isNullish, JSVal.get] at h
    | arr items => simp [JSVal.optGet, JSVal.isNullish, JSVal.get] at h
  · rintro ⟨fields, rfl, hl⟩
    simp [JSVal.optGet, JSVal.isNullish, get_obj, hl]

/-- The test of line 64 passes exactly on the bodies that the specification
calls valid. -/
theorem validBody_iff_test (json : JSVal) :
    validBody json ↔
      (((json.optGet "result").optGet "properties").truthy = true ∧
        (((json.optGet "result").optGet "properties").get "name").truthy = true) := by
  constructor
  · rintro ⟨body, result, props, name, rfl, hr, hp, hn, ht⟩
    have h1 : (JSVal.obj body).optGet "result" = .obj result :=
      (optGet_eq_obj_iff _ _ _).mpr ⟨body, rfl, hr⟩
    have h2 : (JSVal.obj result).optGet "properties" = .obj props :=
      (optGet_eq_obj_iff _ _ _).mpr ⟨result, rfl, hp⟩
    rw [h1, h2]
    exact ⟨rfl, (truthy_get_iff _ _).mpr ⟨props, name, rfl, hn, ht⟩⟩
  · rintro ⟨_, hname⟩
    obtain ⟨props, name, hprops, hn, ht⟩ := (truthy_get_iff _ _).mp hname
    obtain ⟨result, hresult, hp⟩ := (optGet_eq_obj_iff _ _ _).mp hprops
    obtain ⟨body, hbody, hr⟩ := (optGet_eq_obj_iff _ _ _).mp hresult
    exact ⟨body, result, props, name, hbody, hr, hp, hn, ht⟩

theorem fetchData_hit {σ : Type} (S : StoreLocal σ) (net : Network) (cache : σ)
    (type id : String) (h : (S.read cache (storeKey type id)).truthy = true) :
    fetchData S net cache type id =
      { data := S.read cache (storeKey type id), error := .null,
        loading := false, cache := cache, requests := [] } := by
  simp [fetchData, h]

theorem fetchData_miss_ok {σ : Type} (S : StoreLocal σ) (net : Network)
    (cache cache' : σ) (type id : String) (requests : List String)
    (record : JSVal)
    (h : (S.read cache (storeKey type id)).truthy = false)
    (ht : tryBlock S net cache type id = (requests, .ok (record, cache'))) :
    fetchData S net cache type id =
      { data := record, error := .null, loading := false, cache := cache',
        requests := requests } := by
  simp [fetchData, h, ht]

theorem fetchData_miss_error {σ : Type} (S : StoreLocal σ) (net : Network)
    (cache : σ) (type id : String) (requests : List String) (err : JSVal)
    (h : (S.read cache (storeKey type id)).truthy = false)
    (ht : tryBlock S net cache type id = (requests, .error err)) :
    fetchData S net cache type id =
      { data := .null,
        error := orElse (err.optGet "message") (.str "Error desconocido"),
        loading := false, cache := cache, requests := requests } := by
  simp [fetchData, h, ht]

/-- The message that the handler shows is never `null`. -/
theorem handler_message_ne_null (err : JSVal) :
    orElse (err.optGet "message") (.str "Error desconocido") ≠ .null := by
  unfold JSVal.orElse
  split
  · rename_i h
    intro hEq
    rw [hEq] at h
    simp [JSVal.truthy] at h
  · intro hEq
    cases hEq

/-- The handler shows the message of an error made by `new Error(msg)` with a
non-empty message. -/
theorem handler_message_newError (msg : String) (h : msg ≠ "") :
    orElse ((newError msg).optGet "message") (.str "Error desconocido") =
      .str msg := by
  simp [newError, JSVal.optGet, JSVal.isNullish, JSVal.get, lookupField,
    JSVal.orElse, JSVal.truthy, h]

theorem append_ne_empty (a b : String) (h : a ≠ "") : a ++ b ≠ "" := by
  intro hEq
  have hl := congrArg String.length hEq
  rw [String.length_append] at hl
  have ha : a.length ≠ 0 := fun h0 => h ((length_eq_zero_iff_empty a).mp h0)
  have h0 : ("" : String).length = 0 := rfl
  omega

/-- A successful `try` block saved the record it returns, and the record is an
object. -/
theorem tryBlock_ok_inv {σ : Type} (S : StoreLocal σ) (net : Network)
    (cache cache' : σ) (type id : String) (requests : List String)
    (record : JSVal)
    (ht : tryBlock S net cache type id = (requests, .ok (record, cache'))) :
    cache' = S.save cache (storeKey type id) record ∧ record.truthy = true := by
  unfold tryBlock at ht
  simp only [] at ht
  split at ht
  · cases ht
  · split at ht
    · cases ht
    · split at ht
      · cases ht
      · split at ht
        · cases ht
        · split at ht
          · cases ht
          · simp only [Prod.mk.injEq, Except.ok.injEq] at ht
            obtain ⟨-, hrec, hcache⟩ := ht
            subst hrec
            exact ⟨hcache.symm, rfl⟩

theorem lookupEndpoint_recognized (type : String)
    (htype : type = "character" ∨ type = "planet" ∨ type = "starship") :
    (lookupEndpoint type).truthy = true := by
  rcases htype with h | h | h <;> subst h <;> decide

theorem lookupEndpoint_unknown (type : String) (hc : type ≠ "character")
    (hp : type ≠ "planet") (hs : type ≠ "starship")
    (hproto : type ∉ objectPrototypeNames) :
    lookupEndpoint type = .absent := by
  have hl : SWAPI_ENDPOINT.lookup type = none := by
    have h1 : (type == "character") = false := by simpa using hc
    have h2 : (type == "planet") = false := by simpa using hp
    have h3 : (type == "starship") = false := by simpa using hs
    simp only [SWAPI_ENDPOINT, List.lookup, h1, h2, h3]
  simp [lookupEndpoint, hl, hproto]

/-- A type that names a member inherited from `Object.prototype` passes the
test of line 54: the run on a cache miss goes on to request a URL. -/
theorem fetchData_inherited_name_requests :
    (lookupEndpoint "constructor").truthy = true ∧
    (fetchData memStore unreachable [] "constructor" "1").requests
      = [requestUrl (.inherited "constructor") "1"] ∧
    (fetchData memStore unreachable [] "constructor" "1").error
      = .str "Failed to fetch" :=
  ⟨rfl, rfl, rfl⟩

theorem tryBlock_invalid {σ : Type} (S : StoreLocal σ) (net : Network)
    (cache : σ) (type id : String) (h : (lookupEndpoint type).truthy = false) :
    tryBlock S net cache type id =
      ([], .error (newError ("Tipo inválido: " ++ type))) := by
  simp [tryBlock, h]

/-- The `try` block after a response with a success status and a parsed
body. -/
theorem tryBlock_parsed {σ : Type} (S : StoreLocal σ) (net : Network)
    (cache : σ) (type id : String) (status : Nat) (json : JSVal)
    (hE : (lookupEndpoint type).truthy = true)
    (hnet : net (requestUrl (lookupEndpoint type) id) =
      .resolves { status := status, json := .value json })
    (hok : 200 ≤ status ∧ status ≤ 299) :
    tryBlock S net cache type id =
      if ((json.optGet "result").optGet "properties").truthy = true ∧
          (((json.optGet "result").optGet "properties").get "name").truthy = true then
        ([requestUrl (lookupEndpoint type) id],
          .ok (finalData ((json.optGet "result").optGet "properties"),
            S.save cache (storeKey type id)
              (finalData ((json.optGet "result").optGet "properties"))))
      else
        ([requestUrl (lookupEndpoint type) id],
          .error (newError "Respuesta inesperada de SWAPI.tech")) := by
  have hok' : Response.ok { status := status, json := .value json } = true := by
    simp [Response.ok, hok.1, hok.2]
  unfold tryBlock
  simp only [hE, hnet, hok']
  by_cases h1 : ((json.optGet "result").optGet "properties").truthy = true
  · by_cases h2 : (((json.optGet "result").optGet "properties").get "name").truthy = true
    · simp [h1, h2]
    · simp [h1, h2]
  · simp [h1]

theorem lookupField_setField_same (k : String) (v : JSVal) :
    ∀ fields : List (String × JSVal), lookupField k (setField k v fields) = some v
  | [] => by simp [setField, lookupField]
  | (k', v') :: rest => by
    by_cases h : k' = k
    · simp [setField, lookupField, h]
    · simp [setField, lookupField, h, lookupField_setField_same k v rest]

theorem lookupField_setField_other (k k₀ : String) (v : JSVal) (hk : k₀ ≠ k) :
    ∀ fields : List (String × JSVal),
      lookupField k₀ (setField k v fields) = lookupField k₀ fields
  | [] => by simp [setField, lookupField, Ne.symm hk]
  | (k', v') :: rest => by
    by_cases h : k' = k
    · have h' : ¬ k' = k₀ := fun hEq => hk (hEq.symm.trans h)
      simp [setField, lookupField, h, h', Ne.symm hk]
    · by_cases h₀ : k' = k₀
      · subst h₀
        simp [setField, lookupField, h]
      · simp [setField, lookupField, h, h₀,
          lookupField_setField_other k k₀ v hk rest]

theorem split_at_separator {α : Type} (c : α) :
    ∀ (l₁ l₂ r₁ r₂ : List α), c ∉ l₁ → c ∉ l₂ →
      l₁ ++ c :: r₁ = l₂ ++ c :: r₂ → l₁ = l₂ ∧ r₁ = r₂
  | [], [], _, _, _, _, h => by
    simp at h
    exact ⟨rfl, h⟩
  | [], y :: l₂, _, _, _, h₂, h => by
    simp at h
    exact absurd h.1 (fun hEq => h₂ (by simp [hEq]))
  | x :: l₁, [], _, _, h₁, _, h => by
    simp at h
    exact absurd h.1 (fun hEq => h₁ (by simp [hEq]))
  | x :: l₁, y :: l₂, r₁, r₂, h₁, h₂, h => by
    simp at h
    have ih := split_at_separator c l₁ l₂ r₁ r₂
      (fun hm => h₁ (List.mem_cons_of_mem _ hm))
      (fun hm => h₂ (List.mem_cons_of_mem _ hm)) h.2
    exact ⟨by rw [h.1, ih.1], ih.2⟩

theorem storeKey_data (type id : String) :
    (storeKey type id).data = "starwars_".data ++ (type.data ++ '_' :: id.data) := by
  simp [storeKey, String.data_append]

/-! ## The helpers `pretty` and `isMissing` -/

/-- C8, as stated, fails: a parsed object with an own field `toString` is
neither `null` nor `undefined` and has no string form, since `String` throws
on it; `pretty` throws on it, and on an array that holds it, and so gives
neither the sentinel text nor a trimmed string form. -/
theorem pretty_throws_on_own_toString :
    ownToString ≠ .null ∧ ownToString ≠ .undefined ∧
    ownToString.toStr = none ∧ pretty ownToString = none ∧
    pretty (.arr [.str "a", ownToString]) = none :=
  ⟨fun h => (by cases h), fun h => (by cases h), rfl, rfl, rfl⟩

/-- C8, amended: for every value `v` that has a string form `s` (`String(v)`
does not throw), whose trimmed form is `t`: `pretty v` is the sentinel text
`No disponible` when `v` is `null`, `undefined`, or `t` is empty, and
otherwise it is `t`. -/
theorem pretty_sentinel_or_trimmed (v : JSVal) (s t : String)
    (hs : v.toStr = some s) (ht : TrimOf s t) :
    pretty v =
      some (if v = .null ∨ v = .undefined ∨ t = "" then "No disponible"
        else t) := by
  rw [(trimOf_iff s t).mp ht]
  exact pretty_cases v s hs

/-- The helper on a name with white space around it, on white space alone, on
a name between a no-break space and a byte order mark, on a number, on an
array and on `undefined`. -/
theorem pretty_sentinel_or_trimmed_witness :
    TrimOf "  Luke Skywalker \n" "Luke Skywalker" ∧
    pretty (.str "  Luke Skywalker \n") = some "Luke Skywalker" ∧
    pretty (.str " \t\n") = some "No disponible" ∧
    pretty (.str "\u00a0Leia\ufeff") = some "Leia" ∧
    pretty (.num ⟨1000, by decide⟩) = some "1000" ∧
    pretty (.arr [.bool true, .null, .str " x"]) = some "true,, x" ∧
    pretty .undefined = some "No disponible" :=
  ⟨(trimOf_iff _ _).mpr (by decide),
    (pretty_sentinel_or_trimmed (.str "  Luke Skywalker \n")
      "  Luke Skywalker \n" "Luke Skywalker" rfl
      ((trimOf_iff _ _).mpr (by decide))).trans (by decide),
    (pretty_sentinel_or_trimmed (.str " \t\n") " \t\n" "" rfl
      ((trimOf_iff _ _).mpr (by decide))).trans (by decide),
    (pretty_sentinel_or_trimmed (.str "\u00a0Leia\ufeff") "\u00a0Leia\ufeff"
      "Leia" rfl ((trimOf_iff _ _).mpr (by decide))).trans (by decide),
    (pretty_sentinel_or_trimmed (.num ⟨1000, by decide⟩) "1000" "1000" rfl
      ((trimOf_iff _ _).mpr (by decide))).trans (by decide),
    (pretty_sentinel_or_trimmed (.arr [.bool true, .null, .str " x"])
      "true,, x" "true,, x" rfl
      ((trimOf_iff _ _).mpr (by decide))).trans (by decide),
    (pretty_sentinel_or_trimmed .undefined "undefined" "undefined" rfl
      ((trimOf_iff _ _).mpr (by decide))).trans (by decide)⟩

/-- C10: for every value `v`, `isMissing v` is true exactly when `v` is `null`,
`v` is `undefined`, the string form of `v` is empty after trimming, or the
trimmed string form is the sentinel text itself (white space alone and the
padded sentinel text are missing, a number and a padded name are not, and on
an object with an own `toString` the helper throws); and the string
`No disponible`, which is neither `null` nor `undefined` and has a non-empty
string form, is missing and is counted by the incomplete verdict. -/
theorem isMissing_iff_and_sentinel_counts :
    (∀ v : JSVal, isMissing v = some true ↔
      (v = .null ∨ v = .undefined ∨
        ∃ s t, v.toStr = some s ∧ TrimOf s t ∧
          (t = "" ∨ t = "No disponible"))) ∧
    (isMissing (.str "   ") = some true ∧
      isMissing (.str " No disponible\n") = some true ∧
      isMissing (.arr []) = some true ∧
      isMissing (.num ⟨1000, by decide⟩) = some false ∧
      isMissing (.str " Luke ") = some false ∧
      isMissing ownToString = none) ∧
    ((JSVal.str "No disponible").toStr = some "No disponible" ∧
      isMissing (.str "No disponible") = some true ∧
      missingCount "character"
        (.obj [("gender", .str "male"), ("hair_color", .str "blond"),
          ("eye_color", .str "blue"), ("birth_year", .str "19BBY")]) = some 0 ∧
      missingCount "character"
        (.obj [("gender", .str "No disponible"), ("hair_color", .str "blond"),
          ("eye_color", .str "blue"), ("birth_year", .str "19BBY")]) = some 1 ∧
      isIncomplete "character"
        (.obj [("gender", .str "No disponible"),
          ("hair_color", .str "No disponible"),
          ("eye_color", .str "blue"), ("birth_year", .str "19BBY")])
        = some true) := by
  refine ⟨?_, ?_, ?_⟩
  · intro v
    rw [isMissing_cases]
    constructor
    · rintro (h | h | ⟨s, hs, ht⟩)
      · exact Or.inl h
      · exact Or.inr (Or.inl h)
      · exact Or.inr (Or.inr ⟨s, jsTrim s, hs, (trimOf_iff s _).mpr rfl, ht⟩)
    · rintro (h | h | ⟨s, t, hs, htrim, ht⟩)
      · exact Or.inl h
      · exact Or.inr (Or.inl h)
      · rw [(trimOf_iff s t).mp htrim] at ht
        exact Or.inr (Or.inr ⟨s, hs, ht⟩)
  · exact ⟨by decide, by decide, by decide, by decide, by decide, by decide⟩
  · exact ⟨rfl, by decide, by decide, by decide, by decide⟩

/-! ## The effect `fetchData` -/

/-- C1: for every store whose `read` gives what was last saved under a key,
every type, id and cache: when a first run of `fetchData` succeeds with the
record `r`, a second run for the same type and id, on the cache the first run
left and against any network, succeeds with a record equal to `r` and
requests no URL. -/
theorem fetchData_second_run_hits {σ : Type} (S : StoreLocal σ)
    (hlaw : ∀ c k v, S.read (S.save c k v) k = v) (net₁ net₂ : Network)
    (cache : σ) (type id : String) (r : JSVal)
    (hfirst : (fetchData S net₁ cache type id).error = .null)
    (hdata : (fetchData S net₁ cache type id).data = r) :
    (fetchData S net₂ (fetchData S net₁ cache type id).cache type id).error = .null ∧
    (fetchData S net₂ (fetchData S net₁ cache type id).cache type id).data = r ∧
    (fetchData S net₂ (fetchData S net₁ cache type id).cache type id).requests = [] := by
  by_cases h : (S.read cache (storeKey type id)).truthy = true
  · rw [fetchData_hit S net₁ cache type id h] at hdata ⊢
    simp only at hdata ⊢
    rw [fetchData_hit S net₂ cache type id h]
    exact ⟨rfl, hdata, rfl⟩
  · have hmiss : (S.read cache (storeKey type id)).truthy = false := by
      simpa using h
    match ht : tryBlock S net₁ cache type id with
    | (requests, .error err) =>
      rw [fetchData_miss_error S net₁ cache type id requests err hmiss ht] at hfirst
      exact absurd hfirst (handler_message_ne_null err)
    | (requests, .ok (record, cache')) =>
      obtain ⟨hsave, htruthy⟩ :=
        tryBlock_ok_inv S net₁ cache cache' type id requests record ht
      rw [fetchData_miss_ok S net₁ cache cache' type id requests record hmiss ht]
        at hdata ⊢
      simp only at hdata ⊢
      have hread : S.read cache' (storeKey type id) = record := by
        rw [hsave, hlaw]
      have hhit : (S.read cache' (storeKey type id)).truthy = true := by
        rw [hread]
        exact htruthy
      rw [fetchData_hit S net₂ cache' type id hhit]
      exact ⟨rfl, hread.trans hdata, rfl⟩

/-- Scenarios A and B of the specification on the store in memory: the first
run fetches Luke Skywalker, the second run, against an unreachable network,
gives the same record without a request. -/
theorem fetchData_second_run_hits_witness :
    (fetchData memStore (respond 200 (bodyOf lukeProps)) [] "character" "1").error
        = .null ∧
    (fetchData memStore unreachable
      (fetchData memStore (respond 200 (bodyOf lukeProps)) [] "character" "1").cache
      "character" "1").error = .null ∧
    (fetchData memStore unreachable
      (fetchData memStore (respond 200 (bodyOf lukeProps)) [] "character" "1").cache
      "character" "1").data = .obj (lukeProps ++ [("description", .str "")]) ∧
    (fetchData memStore unreachable
      (fetchData memStore (respond 200 (bodyOf lukeProps)) [] "character" "1").cache
      "character" "1").requests = [] :=
  ⟨rfl,
    fetchData_second_run_hits memStore
      (fun c k v => by simp [memStore, lookupField])
      (respond 200 (bodyOf lukeProps)) unreachable [] "character" "1"
      (JSVal.obj (lukeProps ++ [("description", JSVal.str "")])) (by rfl)
      (by rfl)⟩

/-- C4: for every run of `fetchData` that ends in an error, the cache after the
run is the cache before it, and the store reports no entry under the key of
the run. -/
theorem fetchData_error_keeps_cache {σ : Type} (S : StoreLocal σ)
    (net : Network) (cache : σ) (type id : String)
    (herr : (fetchData S net cache type id).error ≠ .null) :
    (fetchData S net cache type id).cache = cache ∧
      S.absent (fetchData S net cache type id).cache (storeKey type id) := by
  by_cases h : (S.read cache (storeKey type id)).truthy = true
  · rw [fetchData_hit S net cache type id h] at herr
    exact absurd rfl herr
  · have hmiss : (S.read cache (storeKey type id)).truthy = false := by
      simpa using h
    match ht : tryBlock S net cache type id with
    | (requests, .ok (record, cache')) =>
      rw [fetchData_miss_ok S net cache cache' type id requests record hmiss ht]
        at herr
      exact absurd rfl herr
    | (requests, .error err) =>
      rw [fetchData_miss_error S net cache type id requests err hmiss ht]
      exact ⟨rfl, hmiss⟩

/-- Scenario D of the specification: the status 404 for starship 9 is an
error, and the cache stays empty. -/
theorem fetchData_error_keeps_cache_witness :
    (fetchData memStore (respond 404 .null) [] "starship" "9").error
        = .str "SWAPI error 404" ∧
    (fetchData memStore (respond 404 .null) [] "starship" "9").cache = [] ∧
    memStore.absent (fetchData memStore (respond 404 .null) [] "starship" "9").cache
      (storeKey "starship" "9") :=
  ⟨rfl,
    fetchData_error_keeps_cache memStore (respond 404 .null) [] "starship" "9"
      (by intro h; cases h)⟩

/-- C2, as stated, fails: with an entry under the key `starwars_vehicle_3` in
the cache, the run for the type `vehicle`, which is none of `character`,
`planet`, `starship`, ends without an error and shows the cached entry. -/
theorem fetchData_unknown_type_cache_hit :
    "vehicle" ≠ "character" ∧ "vehicle" ≠ "planet" ∧ "vehicle" ≠ "starship" ∧
    (fetchData memStore unreachable
      [("starwars_vehicle_3", .obj [("name", .str "Sand Crawler")])]
      "vehicle" "3").error = .null ∧
    (fetchData memStore unreachable
      [("starwars_vehicle_3", .obj [("name", .str "Sand Crawler")])]
      "vehicle" "3").data = .obj [("name", .str "Sand Crawler")] :=
  ⟨by decide, by decide, by decide, rfl, rfl⟩

/-- C2, amended: for a type that is none of `character`, `planet`, `starship`
and not the name of a member inherited from `Object.prototype`, every id and
every cache in which the store reports no entry under the key, `fetchData`
ends with the error message `Tipo inválido: <type>` and requests no URL. -/
theorem fetchData_unknown_type_on_miss {σ : Type} (S : StoreLocal σ)
    (net : Network) (cache : σ) (type id : String)
    (hc : type ≠ "character") (hp : type ≠ "planet") (hs : type ≠ "starship")
    (hproto : type ∉ objectPrototypeNames)
    (hmiss : S.absent cache (storeKey type id)) :
    (fetchData S net cache type id).error = .str ("Tipo inválido: " ++ type) ∧
      (fetchData S net cache type id).requests = [] := by
  have hE : (lookupEndpoint type).truthy = false := by
    rw [lookupEndpoint_unknown type hc hp hs hproto]
    rfl
  rw [fetchData_miss_error S net cache type id [] _ hmiss
    (tryBlock_invalid S net cache type id hE)]
  exact ⟨handler_message_newError _
    (append_ne_empty "Tipo inválido: " type (by decide)), rfl⟩

/-- Scenario E of the specification: on an empty cache the type `vehicle` is
refused before any request. -/
theorem fetchData_unknown_type_on_miss_witness :
    memStore.absent [] (storeKey "vehicle" "3") ∧
    (fetchData memStore unreachable [] "vehicle" "3").error
        = .str ("Tipo inválido: " ++ "vehicle") ∧
    (fetchData memStore unreachable [] "vehicle" "3").requests = [] :=
  ⟨rfl,
    fetchData_unknown_type_on_miss memStore unreachable [] "vehicle" "3"
      (by decide) (by decide) (by decide) (by decide) rfl⟩

/-- C3, as stated, fails: on a cache miss, with the type `planet` and the
success status 200, a body that does not parse makes `resp.json()` throw
(line 60); the run ends with the message of the parser, not with
`Respuesta inesperada de SWAPI.tech`. -/
theorem fetchData_unparsed_body :
    memStore.absent [] (storeKey "planet" "3") ∧
    Response.ok
      { status := 200,
        json := .throws (newError "Unexpected token < in JSON at position 0") }
      = true ∧
    (fetchData memStore
      (respondUnparsed 200 (newError "Unexpected token < in JSON at position 0"))
      [] "planet" "3").error
      = .str "Unexpected token < in JSON at position 0" ∧
    (fetchData memStore
      (respondUnparsed 200 (newError "Unexpected token < in JSON at position 0"))
      [] "planet" "3").error
      ≠ .str "Respuesta inesperada de SWAPI.tech" ∧
    (fetchData memStore
      (respondUnparsed 200 (newError "Unexpected token < in JSON at position 0"))
      [] "planet" "3").requests = ["https://www.swapi.tech/api/planets/3"] :=
  ⟨rfl, rfl, rfl,
    fun h => absurd (JSVal.str.inj ((Eq.symm (by rfl)).trans h)) (by decide),
    rfl⟩

/-- C3, amended: for every run of `fetchData` on a cache miss, with a type
among `character`, `planet`, `starship` and a response with a success status
and a body that parses: the run succeeds if and only if the parsed body
contains `result.properties` and that object contains a non-empty name; in
every other such case it ends with the message
`Respuesta inesperada de SWAPI.tech` and the cache is as before. -/
theorem fetchData_succeeds_iff_valid {σ : Type} (S : StoreLocal σ)
    (net : Network) (cache : σ) (type id : String) (status : Nat) (json : JSVal)
    (htype : type = "character" ∨ type = "planet" ∨ type = "starship")
    (hmiss : S.absent cache (storeKey type id))
    (hnet : net (requestUrl (lookupEndpoint type) id) =
      .resolves { status := status, json := .value json })
    (hok : 200 ≤ status ∧ status ≤ 299) :
    ((fetchData S net cache type id).error = .null ↔ validBody json) ∧
    (¬ validBody json →
      (fetchData S net cache type id).error
          = .str "Respuesta inesperada de SWAPI.tech" ∧
        (fetchData S net cache type id).cache = cache) := by
  have hE := lookupEndpoint_recognized type htype
  have ht := tryBlock_parsed S net cache type id status json hE hnet hok
  by_cases hv : validBody json
  · have htest := (validBody_iff_test json).mp hv
    rw [if_pos htest] at ht
    rw [fetchData_miss_ok S net cache _ type id _ _ hmiss ht]
    exact ⟨⟨fun _ => hv, fun _ => rfl⟩, fun hnv => absurd hv hnv⟩
  · have htest : ¬ (((json.optGet "result").optGet "properties").truthy = true ∧
        (((json.optGet "result").optGet "properties").get "name").truthy = true) :=
      fun h => hv ((validBody_iff_test json).mpr h)
    rw [if_neg htest] at ht
    rw [fetchData_miss_error S net cache type id _ _ hmiss ht]
    have hmsg := handler_message_newError "Respuesta inesperada de SWAPI.tech"
      (by decide)
    refine ⟨⟨fun h => ?_, fun h => absurd h hv⟩, fun _ => ⟨hmsg, rfl⟩⟩
    simp only at h
    rw [hmsg] at h
    cases h

/-- Scenario C of the specification: the body `{ result: {} }` has no
properties, the run ends with the message of a malformed response and the
cache stays empty. -/
theorem fetchData_succeeds_iff_valid_witness :
    ¬ validBody (.obj [("result", .obj [])]) ∧
    (fetchData memStore (respond 200 (.obj [("result", .obj [])])) []
      "planet" "3").error = .str "Respuesta inesperada de SWAPI.tech" ∧
    (fetchData memStore (respond 200 (.obj [("result", .obj [])])) []
      "planet" "3").cache = [] :=
  have hnv : ¬ validBody (.obj [("result", .obj [])]) := by
    rintro ⟨body, result, props, name, hb, hr, hp, -, -⟩
    cases hb
    simp [lookupField] at hr
    subst hr
    simp [lookupField] at hp
  ⟨hnv,
    (fetchData_succeeds_iff_valid memStore
      (respond 200 (.obj [("result", .obj [])])) [] "planet" "3" 200
      (.obj [("result", .obj [])]) (Or.inr (Or.inl rfl)) rfl rfl
      (by decide)).2 hnv⟩

/-- C5, as stated, fails: the properties with the name `Luke Skywalker` and
the description `false` pass validation and have a description, and the
record that `fetchData` returns has the description `""`, not `false`. -/
theorem fetchData_description_false :
    lookupField "description"
        [("name", .str "Luke Skywalker"), ("description", .bool false)]
      = some (.bool false) ∧
    (fetchData memStore
      (respond 200
        (bodyOf [("name", .str "Luke Skywalker"), ("description", .bool false)]))
      [] "character" "1").error = .null ∧
    (fetchData memStore
      (respond 200
        (bodyOf [("name", .str "Luke Skywalker"), ("description", .bool false)]))
      [] "character" "1").data
      = .obj [("name", .str "Luke Skywalker"), ("description", .str "")] :=
  ⟨rfl, rfl, rfl⟩

/-- C5, amended: for every properties value `p` that passes validation, the
record that `fetchData` returns and saves has a description field equal to the
description of `p` when that is truthy and equal to the empty string otherwise
(when `p` has none, or has `null`, `false`, `0` or the empty string), has every
other field of `p` with an unchanged value, and has no field that is not in
`p` apart from the description. -/
theorem fetchData_record_fields {σ : Type} (S : StoreLocal σ) (net : Network)
    (cache : σ) (type id : String) (status : Nat) (json p : JSVal)
    (hE : (lookupEndpoint type).truthy = true)
    (hmiss : S.absent cache (storeKey type id))
    (hnet : net (requestUrl (lookupEndpoint type) id) =
      .resolves { status := status, json := .value json })
    (hok : 200 ≤ status ∧ status ≤ 299)
    (hp : (json.optGet "result").optGet "properties" = p)
    (hvalid : p.truthy = true ∧ (p.get "name").truthy = true) :
    ∃ fields record,
      p = .obj fields ∧
      (fetchData S net cache type id).data = .obj record ∧
      (fetchData S net cache type id).cache
        = S.save cache (storeKey type id) (.obj record) ∧
      lookupField "description" record
        = some (if (p.get "description").truthy = true then p.get "description"
            else .str "") ∧
      ∀ k, k ≠ "description" → lookupField k record = lookupField k fields := by
  subst hp
  have ht := tryBlock_parsed S net cache type id status json hE hnet hok
  rw [if_pos hvalid] at ht
  rw [fetchData_miss_ok S net cache _ type id _ _ hmiss ht]
  obtain ⟨fields, name, hfields, -, -⟩ := (truthy_get_iff _ _).mp hvalid.2
  rw [hfields]
  refine ⟨fields, _, rfl, rfl, rfl, ?_, ?_⟩
  · rw [spreadFields, lookupField_setField_same]
    rfl
  · intro k hk
    rw [spreadFields]
    exact lookupField_setField_other "description" k _ hk fields

/-- Scenario A of the specification: the properties of Luke Skywalker have no
description, the record has the description `""` and the other fields as they
came. -/
theorem fetchData_record_fields_witness :
    ∃ fields record,
      JSVal.obj lukeProps = .obj fields ∧
      (fetchData memStore (respond 200 (bodyOf lukeProps)) [] "character" "1").data
        = .obj record ∧
      (fetchData memStore (respond 200 (bodyOf lukeProps)) [] "character" "1").cache
        = memStore.save [] (storeKey "character" "1") (.obj record) ∧
      lookupField "description" record
        = some (if ((JSVal.obj lukeProps).get "description").truthy = true then
            (JSVal.obj lukeProps).get "description" else .str "") ∧
      ∀ k, k ≠ "description" → lookupField k record = lookupField k fields :=
  fetchData_record_fields memStore (respond 200 (bodyOf lukeProps)) []
    "character" "1" 200 (bodyOf lukeProps) (.obj lukeProps) (by decide) rfl rfl
    (by decide) rfl ⟨rfl, rfl⟩

/-! ## The cache key -/

/-- C9, as stated, fails: the pairs (`a_b`, `c`) and (`a`, `b_c`) are
distinct and have the same cache key `starwars_a_b_c`. -/
theorem storeKey_collision :
    ("a_b", "c") ≠ ("a", "b_c") ∧ storeKey "a_b" "c" = storeKey "a" "b_c" ∧
      storeKey "a_b" "c" = "starwars_a_b_c" :=
  ⟨by decide, by decide, by decide⟩

/-- C9, amended: for two pairs whose types contain no underscore (as
`character`, `planet` and `starship` do not), the cache keys are equal if and
only if the pairs are identical. -/
theorem storeKey_injective_without_underscore (t₁ i₁ t₂ i₂ : String)
    (h₁ : '_' ∉ t₁.data) (h₂ : '_' ∉ t₂.data) :
    storeKey t₁ i₁ = storeKey t₂ i₂ ↔ (t₁, i₁) = (t₂, i₂) := by
  constructor
  · intro h
    have hd := congrArg String.data h
    rw [storeKey_data, storeKey_data] at hd
    have hs := split_at_separator '_' _ _ _ _ h₁ h₂ (List.append_cancel_left hd)
    rw [String.ext hs.1, String.ext hs.2]
  · intro h
    rw [Prod.mk.injEq] at h
    rw [h.1, h.2]

/-- The keys of (`character`, `1`) and (`planet`, `1`) differ exactly as the
pairs do. -/
theorem storeKey_injective_without_underscore_witness :
    '_' ∉ "character".data ∧ '_' ∉ "planet".data ∧
      (storeKey "character" "1" = storeKey "planet" "1" ↔
        ("character", "1") = ("planet", "1")) :=
  ⟨by decide, by decide,
    storeKey_injective_without_underscore "character" "1" "planet" "1"
      (by decide) (by decide)⟩

/-! ## The completeness verdict -/

/-- C6, as stated, fails: in this character record the fields `hair_color`
and `eye_color` are missing, two of the required fields, and the gender is an
object with an own `toString`; the filter throws at the gender and the page
reaches no verdict, so the verdict is not true. -/
theorem isIncomplete_throws_on_own_toString :
    isMissing (shadowedGender.optGet "hair_color") = some true ∧
    isMissing (shadowedGender.optGet "eye_color") = some true ∧
    isMissing (shadowedGender.optGet "gender") = none ∧
    missingCount "character" shadowedGender = none ∧
    isIncomplete "character" shadowedGender = none :=
  ⟨by decide, by decide, by decide, by decide, by decide⟩

/-- C6, amended: for a type among `character`, `planet`, `starship` and every
record on whose required values `isMissing` returns (none of them is an
object with an own `toString`, or an array that holds one), the page reaches
a verdict, and the verdict is true if and only if at least two distinct
required fields of the type have a value for which `isMissing` is true. -/
theorem isIncomplete_iff_two_missing (type : String) (data : JSVal)
    (htype : type = "character" ∨ type = "planet" ∨ type = "starship")
    (hreturns : ∀ f ∈ requiredFields type, isMissing (data.optGet f) ≠ none) :
    ∃ verdict, isIncomplete type data = some verdict ∧
      (verdict = true ↔
        ∃ f g, f ∈ requiredFields type ∧ g ∈ requiredFields type ∧ f ≠ g ∧
          isMissing (data.optGet f) = some true ∧
          isMissing (data.optGet g) = some true) := by
  have _ := htype
  refine ⟨_, by rw [isIncomplete, missingCount_eq type data hreturns], ?_⟩
  rw [decide_eq_true_iff]
  have h := two_le_filter_length_iff
    (fun f => isMissing (data.optGet f) == some true) _
    (requiredFields_nodup type)
  simpa using h

/-- Scenario A of the specification: the record of Luke Skywalker has no
`gender` and no `hair_color`, exactly two missing fields, and is
incomplete. -/
theorem isIncomplete_iff_two_missing_witness :
    missingCount "character" lukeRecord = some 2 ∧
    isIncomplete "character" lukeRecord = some true ∧
    (∃ verdict, isIncomplete "character" lukeRecord = some verdict ∧
      (verdict = true ↔
        ∃ f g, f ∈ requiredFields "character" ∧
          g ∈ requiredFields "character" ∧ f ≠ g ∧
          isMissing (lukeRecord.optGet f) = some true ∧
          isMissing (lukeRecord.optGet g) = some true)) :=
  ⟨by decide, by decide,
    isIncomplete_iff_two_missing "character" lukeRecord (Or.inl rfl)
      (by decide)⟩

/-- C7: for a type that is none of `character`, `planet`, `starship` and every
record, the incomplete verdict is false: the list of required values is empty
and the missing count is 0. -/
theorem isIncomplete_unknown_type (type : String) (data : JSVal)
    (hc : type ≠ "character") (hp : type ≠ "planet") (hs : type ≠ "starship") :
    isIncomplete type data = some false ∧ requiredValues type data = [] ∧
      missingCount type data = some 0 := by
  have hv : requiredValues type data = [] := by
    simp [requiredValues, hc, hp, hs]
  have hm : missingCount type data = some 0 := by
    simp [missingCount, hv, filterMissing]
  refine ⟨?_, hv, hm⟩
  simp [isIncomplete, hm]

/-- Scenario: the type `vehicle` is never incomplete, here on an empty record
and on a record with an own `toString` in every place. -/
theorem isIncomplete_unknown_type_witness :
    (isIncomplete "vehicle" (.obj []) = some false ∧
      requiredValues "vehicle" (.obj []) = [] ∧
      missingCount "vehicle" (.obj []) = some 0) ∧
    isIncomplete "vehicle" shadowedGender = some false :=
  ⟨isIncomplete_unknown_type "vehicle" (.obj []) (by decide) (by decide)
    (by decide),
   (isIncomplete_unknown_type "vehicle" shadowedGender (by decide) (by decide)
    (by decide)).1⟩

end DetailPage
